/-
Verification of the core logic of `ocularity` (src/main.rs): colour algebra
with saturating narrowing, the 256-entry gradient palette, the trial
randomizer, the stateless session codec, and the request dispatcher's
start/submit/image handlers.

Modelling conventions:
- Rust `u8`/`u32` values are `Nat`s; parsing checks the range explicitly.
- Rust `f32` arithmetic is modelled exactly over `ℚ`.  `f32::round` rounds
  half away from zero; the Rust float-to-int `as` cast saturates, which is
  modelled by an explicit clamp (`castU8`).
- Strings are `List Char`; `str::len` (UTF-8 byte length) is modelled by
  `utf8Len`.
- Randomness (`rand::random`) and the clock (`chrono::Utc::now`) are passed
  as explicit arguments.
- The PNG codec and the HTTP transport are external collaborators; they are
  modelled as abstract pure functions / plain data.
-/
import Mathlib

/-- Kinds of erroneous HTTP responses (`enum HttpError`).  The `Error`
constructor stands for `HttpError::Error(Box<dyn Error>)`, the wrapper that
`impl_from_for_error!` applies to `ParseIntError`, `ParseCharError`, IO and
codec errors; the boxed payload is not needed for any property proved here. -/
inductive HttpError where
  | Invalid
  | NotFound
  | Error
deriving DecidableEq, Repr

/-- Successful HTTP responses (`enum HttpOkay`).  `File`'s payload and the
static asset bytes are irrelevant to the properties proved here; `Static`
carries a tag (0 = stylesheet, 1 = intro page) instead of the embedded
bytes, and `Data` carries the PNG bytes. -/
inductive HttpOkay where
  | File
  | Text (s : List Char)
  | Html (s : List Char)
  | Data (bytes : List Nat)
  | Static (tag : Nat)
  | Redirect (url : List Char)
deriving DecidableEq, Repr

deriving instance DecidableEq for Except

/-- Response-status mapping performed by `Ocularity::handle_requests`:
redirects get 301, other successes 200, `Invalid` 400, `NotFound` 404, and
wrapped internal errors 500. -/
def statusOf : Except HttpError HttpOkay → Nat
  | .ok (.Redirect _) => 301
  | .ok _ => 200
  | .error .Invalid => 400
  | .error .NotFound => 404
  | .error .Error => 500

-- ----------------------------------------------------------------------------
-- Decimal integer parsing and printing (Rust `u8`/`u32` `FromStr`/`Display`)

/-- Is `c` an ASCII decimal digit (code points 48–57)? -/
def isDigitCh (c : Char) : Bool := 48 ≤ c.toNat && c.toNat ≤ 57

/-- Numeric value of a digit character. -/
def digitVal (c : Char) : Nat := c.toNat - 48

/-- Value of a digit string, most significant digit first. -/
def digitsVal (s : List Char) : Nat := s.foldl (fun a c => 10 * a + digitVal c) 0

/-- Rust `from_str_radix` after the sign has been stripped, positive case:
empty or non-digit input is an error, and accumulation overflow means the
value reaches `bound` (= 2^width). -/
def parseDigitsPos (bound : Nat) (digits : List Char) : Option Nat :=
  if digits = [] then none
  else if digits.all isDigitCh then
    if digitsVal digits < bound then some (digitsVal digits) else none
  else none

/-- Rust `from_str_radix` with a leading `-` on an unsigned type: the
accumulator `0 - digit` underflows unless every digit is zero, so only
values spelling zero parse. -/
def parseDigitsNeg (digits : List Char) : Option Nat :=
  if digits = [] then none
  else if digits.all isDigitCh then
    if digitsVal digits = 0 then some 0 else none
  else none

/-- Rust `str::parse` for an unsigned integer type with `bound = 2^width`:
an optional `+`/`-` sign followed by at least one digit, rejecting values
that do not fit. -/
def parseUInt (bound : Nat) (s : List Char) : Option Nat :=
  match s with
  | [] => none
  | c :: rest =>
    if c = '+' then parseDigitsPos bound rest
    else if c = '-' then parseDigitsNeg rest
    else parseDigitsPos bound s

/-- The digit character for `d ≤ 9` (larger inputs never occur). -/
def digitOf : Nat → Char
  | 0 => '0' | 1 => '1' | 2 => '2' | 3 => '3' | 4 => '4'
  | 5 => '5' | 6 => '6' | 7 => '7' | 8 => '8' | _ => '9'

/-- Decimal rendering of a `Nat`, as Rust `Display` for unsigned integers. -/
def natToDec (n : Nat) : List Char :=
  if n < 10 then [digitOf n]
  else natToDec (n / 10) ++ [digitOf (n % 10)]
termination_by n
decreasing_by exact Nat.div_lt_self (by omega) (by omega)

-- ----------------------------------------------------------------------------
-- Colour algebra (struct Delta, struct Colour and their operator impls)

/-- A perturbation of the three colour channels (`struct Delta(f32, f32, f32)`),
with `f32` components modelled as rationals. -/
structure Delta where
  d0 : ℚ
  d1 : ℚ
  d2 : ℚ
deriving DecidableEq

/-- Componentwise scaling (`impl Mul<f32> for Delta`). -/
def Delta.smul (d : Delta) (k : ℚ) : Delta := ⟨d.d0 * k, d.d1 * k, d.d2 * k⟩

/-- Negation (`impl Neg for Delta`), defined in the source as `self * -1.0`. -/
def Delta.neg (d : Delta) : Delta := d.smul (-1)

/-- The six fixed perturbation directions (`const DELTAS`). -/
def DELTAS : List Delta := [
  ⟨2, 2, -3⟩, ⟨5, -5, 0⟩,
  ⟨2, -3, 2⟩, ⟨5, 0, -5⟩,
  ⟨-3, 2, 2⟩, ⟨0, 5, -5⟩]

/-- The ten fixed scale factors (`const SCALES`). -/
def SCALES : List ℚ := [-5, -4, -3, -2, -1, 1, 2, 3, 4, 5]

/-- An sRGB colour (`struct Colour(u8, u8, u8)`); channels are `Nat`s and
every constructor of the program keeps them within `[0, 255]`. -/
structure Colour where
  r : Nat
  g : Nat
  b : Nat
deriving DecidableEq, Repr

/-- All three channels lie in `[0, 255]` (the lower bound holds because the
channels are `Nat`s). -/
def Colour.valid (c : Colour) : Prop := c.r ≤ 255 ∧ c.g ≤ 255 ∧ c.b ≤ 255

instance (c : Colour) : Decidable c.valid := by unfold Colour.valid; infer_instance

/-- Rust `f32::round`: round to the nearest integer, ties away from zero. -/
def roundHalfAway (x : ℚ) : Int := if 0 ≤ x then ⌊x + 1 / 2⌋ else -⌊-x + 1 / 2⌋

/-- The Rust float-to-`u8` `as` cast applied to an already-rounded value:
it saturates at the type's bounds instead of wrapping. -/
def castU8 (x : Int) : Nat := (max 0 (min 255 x)).toNat

/-- Channelwise `colour + delta` (`impl Add<Delta> for Colour`): widen to
`f32`, add, round, and narrow with the saturating cast. -/
def Colour.addDelta (c : Colour) (d : Delta) : Colour :=
  ⟨castU8 (roundHalfAway ((c.r : ℚ) + d.d0)),
   castU8 (roundHalfAway ((c.g : ℚ) + d.d1)),
   castU8 (roundHalfAway ((c.b : ℚ) + d.d2))⟩

/-- `colour - colour` (`impl Sub<Colour> for Colour`), a `Delta` of exact
channel differences computed in `f32`. -/
def Colour.subColour (c c2 : Colour) : Delta :=
  ⟨(c.r : ℚ) - (c2.r : ℚ), (c.g : ℚ) - (c2.g : ℚ), (c.b : ℚ) - (c2.b : ℚ)⟩

/-- `colour - delta` (`impl Sub<Delta> for Colour`), defined in the source
as `self + -rhs`. -/
def Colour.subDelta (c : Colour) (d : Delta) : Colour := c.addDelta d.neg

/-- Rust `str::split(',')`: fields between separators, with leading,
trailing and adjacent separators yielding empty fields ("" splits to [""]). -/
def splitOnChar (sep : Char) : List Char → List (List Char)
  | [] => [[]]
  | c :: rest =>
    if c = sep then [] :: splitOnChar sep rest
    else
      match splitOnChar sep rest with
      | [] => [[c]]
      | f :: fs => (c :: f) :: fs

/-- A `u8` channel parse as used by `Colour::from_str`: a `ParseIntError`
is converted by `impl_from_for_error!` into the wrapped `Error` kind. -/
def parseU8E (s : List Char) : Except HttpError Nat :=
  match parseUInt 256 s with
  | some v => .ok v
  | none => .error .Error

/-- The iterator-consuming body of `impl FromStr for Colour`: take three
`u8` fields in order (an exhausted iterator is `Invalid`, an unparsable
field is the wrapped `Error`), then reject a fourth field as `Invalid`. -/
def parseFields : List (List Char) → Except HttpError Colour
  | [] => .error .Invalid
  | f1 :: rest1 =>
    match parseU8E f1 with
    | .error e => .error e
    | .ok rv =>
      match rest1 with
      | [] => .error .Invalid
      | f2 :: rest2 =>
        match parseU8E f2 with
        | .error e => .error e
        | .ok gv =>
          match rest2 with
          | [] => .error .Invalid
          | f3 :: rest3 =>
            match parseU8E f3 with
            | .error e => .error e
            | .ok bv =>
              match rest3 with
              | _ :: _ => .error .Invalid
              | [] => .ok ⟨rv, gv, bv⟩

/-- `impl FromStr for Colour`: split on commas and consume the fields. -/
def Colour.fromStr (s : List Char) : Except HttpError Colour :=
  parseFields (splitOnChar ',' s)

/-- `impl Display for Colour`: `"r,g,b"`. -/
def Colour.display (c : Colour) : List Char :=
  natToDec c.r ++ [','] ++ natToDec c.g ++ [','] ++ natToDec c.b

/-- The 35 hand-curated centre colours (`const CENTRES`). -/
def CENTRES : List Colour := [
  ⟨25, 25, 25⟩, ⟨127, 25, 25⟩, ⟨229, 25, 25⟩,
  ⟨25, 127, 25⟩, ⟨127, 127, 25⟩, ⟨229, 127, 25⟩,
  ⟨25, 229, 25⟩, ⟨127, 229, 25⟩, ⟨229, 229, 25⟩,
  ⟨25, 25, 127⟩, ⟨127, 25, 127⟩, ⟨229, 25, 127⟩,
  ⟨25, 127, 127⟩, ⟨127, 127, 127⟩, ⟨229, 127, 127⟩,
  ⟨25, 229, 127⟩, ⟨127, 229, 127⟩, ⟨229, 229, 127⟩,
  ⟨25, 25, 229⟩, ⟨127, 25, 229⟩, ⟨229, 25, 229⟩,
  ⟨25, 127, 229⟩, ⟨127, 127, 229⟩, ⟨229, 127, 229⟩,
  ⟨25, 229, 229⟩, ⟨127, 229, 229⟩, ⟨229, 229, 229⟩,
  ⟨76, 76, 76⟩, ⟨178, 76, 76⟩,
  ⟨76, 178, 76⟩, ⟨178, 178, 76⟩,
  ⟨76, 76, 178⟩, ⟨178, 76, 178⟩,
  ⟨76, 178, 178⟩, ⟨178, 178, 178⟩]

-- ----------------------------------------------------------------------------
-- Palette construction (the loop of `Ocularity::image`)

/-- One step of the gradient loop in `Ocularity::image`:
`bg + (fg - bg) * (i as f32 / 255.0)`. -/
def mix (bg fg : Colour) (i : Nat) : Colour :=
  bg.addDelta ((fg.subColour bg).smul ((i : ℚ) / 255))

/-- The flat 768-byte palette built by `Ocularity::image`: for each
`i` in `0..256` the three channels of `mix bg fg i` are pushed in order. -/
def palette (bg fg : Colour) : List Nat :=
  (List.range 256).flatMap (fun i => [(mix bg fg i).r, (mix bg fg i).g, (mix bg fg i).b])

-- ----------------------------------------------------------------------------
-- Numeric helper lemmas

lemma castU8_le (x : Int) : castU8 x ≤ 255 := by
  unfold castU8; omega

lemma castU8_of_ge (x : Int) (h : 255 ≤ x) : castU8 x = 255 := by
  unfold castU8; omega

lemma castU8_of_le (x : Int) (h : x ≤ 0) : castU8 x = 0 := by
  unfold castU8; omega

lemma castU8_of_mem (x : Int) (h0 : 0 ≤ x) (h1 : x ≤ 255) : castU8 x = x.toNat := by
  unfold castU8; omega

lemma roundHalfAway_intCast (z : Int) : roundHalfAway (z : ℚ) = z := by
  unfold roundHalfAway
  rcases le_or_lt 0 (z : ℚ) with h | h
  · rw [if_pos h]
    rw [Int.floor_int_add]
    have : ⌊(1 / 2 : ℚ)⌋ = 0 := by
      rw [Int.floor_eq_zero_iff]; constructor <;> norm_num
    omega
  · rw [if_neg (not_le.mpr h)]
    rw [show (-(z : ℚ) + 1 / 2) = ((-z : Int) : ℚ) + 1 / 2 by push_cast; ring]
    rw [Int.floor_int_add]
    have : ⌊(1 / 2 : ℚ)⌋ = 0 := by
      rw [Int.floor_eq_zero_iff]; constructor <;> norm_num
    omega

lemma roundHalfAway_natCast (n : Nat) : roundHalfAway (n : ℚ) = n := by
  have := roundHalfAway_intCast (n : Int)
  rwa [show (((n : Int) : ℚ)) = (n : ℚ) by push_cast; ring] at this

lemma roundHalfAway_ge_of_gt (x : ℚ) (h : 255 < x) : 255 ≤ roundHalfAway x := by
  unfold roundHalfAway
  rw [if_pos (by linarith : (0 : ℚ) ≤ x)]
  exact Int.le_floor.mpr (by push_cast; linarith)

lemma roundHalfAway_le_of_neg (x : ℚ) (h : x < 0) : roundHalfAway x ≤ 0 := by
  unfold roundHalfAway
  rw [if_neg (not_le.mpr h)]
  have : (0 : Int) ≤ ⌊-x + 1 / 2⌋ := Int.le_floor.mpr (by push_cast; linarith)
  omega

/-- Adding the zero delta to a valid colour is the identity. -/
lemma addDelta_zero (c : Colour) (h : c.valid) : c.addDelta ⟨0, 0, 0⟩ = c := by
  obtain ⟨h1, h2, h3⟩ := h
  unfold Colour.addDelta
  simp only [add_zero]
  rw [roundHalfAway_natCast, roundHalfAway_natCast, roundHalfAway_natCast,
    castU8_of_mem _ (by omega) (by omega), castU8_of_mem _ (by omega) (by omega),
    castU8_of_mem _ (by omega) (by omega)]
  cases c; simp


/-- A valid colour plus the delta `(fg - bg) * (255/255)` lands exactly on `fg`. -/
lemma mix_fullscale (bg fg : Colour) (hfg : fg.valid) : mix bg fg 255 = fg := by
  obtain ⟨h1, h2, h3⟩ := hfg
  unfold mix Colour.subColour Delta.smul Colour.addDelta
  have e : ∀ x y : Nat, (x : ℚ) + ((y : ℚ) - (x : ℚ)) * (((255 : Nat) : ℚ) / 255) = (y : ℚ) := by
    intro x y; push_cast; ring
  rw [e, e, e, roundHalfAway_natCast, roundHalfAway_natCast, roundHalfAway_natCast,
    castU8_of_mem _ (by omega) (by omega), castU8_of_mem _ (by omega) (by omega),
    castU8_of_mem _ (by omega) (by omega)]
  cases fg; simp

/-- A valid colour plus the delta `(fg - bg) * (0/255)` is unchanged. -/
lemma mix_zero (bg fg : Colour) (hbg : bg.valid) : mix bg fg 0 = bg := by
  unfold mix Colour.subColour Delta.smul
  norm_num
  exact addDelta_zero bg hbg

/-- Claim C1: for every colour and every perturbation, `add` and `subtract`
produce channels saturated into `[0, 255]` (never reduced modulo 256): each
channel is at most 255, a true channel sum above 255 narrows to exactly 255
and a sum below 0 narrows to exactly 0; likewise every gradient step
`mix bg fg i` (the `lerp` at fraction `i/255`) has all channels in
`[0, 255]`.  The lower bound 0 holds because channels are `Nat`s. -/
theorem colour_arithmetic_clamps (c : Colour) (d : Delta) (bg fg : Colour) (i : Nat) :
    (c.addDelta d).valid ∧ (c.subDelta d).valid ∧ (mix bg fg i).valid
  ∧ ((255 : ℚ) < (c.r : ℚ) + d.d0 → (c.addDelta d).r = 255)
  ∧ ((c.r : ℚ) + d.d0 < 0 → (c.addDelta d).r = 0) := by
  refine ⟨⟨castU8_le _, castU8_le _, castU8_le _⟩,
    ⟨castU8_le _, castU8_le _, castU8_le _⟩,
    ⟨castU8_le _, castU8_le _, castU8_le _⟩, ?_, ?_⟩
  · intro h
    exact castU8_of_ge _ (roundHalfAway_ge_of_gt _ h)
  · intro h
    exact castU8_of_le _ (roundHalfAway_le_of_neg _ h)

/-- Witness for C1 at the spec's own example: `250 + 20` saturates to 255
(and `5 - 20` to 0) instead of wrapping. -/
theorem colour_arithmetic_clamps_witness :
    ((Colour.mk 250 0 0).addDelta ⟨20, 0, 0⟩).r = 255
  ∧ ((Colour.mk 5 0 0).addDelta ⟨-20, 0, 0⟩).r = 0 :=
  ⟨(colour_arithmetic_clamps ⟨250, 0, 0⟩ ⟨20, 0, 0⟩ ⟨0, 0, 0⟩ ⟨0, 0, 0⟩ 0).2.2.2.1
     (by norm_num),
   (colour_arithmetic_clamps ⟨5, 0, 0⟩ ⟨-20, 0, 0⟩ ⟨0, 0, 0⟩ ⟨0, 0, 0⟩ 0).2.2.2.2
     (by norm_num)⟩

/-- Indexing into a `flatMap` whose chunks all have length 3. -/
lemma flatMap_three_getElem {α β : Type} (f : α → List β) (hf : ∀ x, (f x).length = 3) :
    ∀ (l : List α) (i j : Nat) (a : α), l[i]? = some a → j < 3 →
      (l.flatMap f)[3 * i + j]? = (f a)[j]? := by
  intro l
  induction l with
  | nil => intro i j a ha _; simp at ha
  | cons x xs ih =>
    intro i j a ha hj
    cases i with
    | zero =>
      simp only [List.getElem?_cons_zero, Option.some.injEq] at ha
      subst ha
      rw [List.flatMap_cons]
      rw [List.getElem?_append_left (by rw [hf]; omega)]
      norm_num
    | succ i =>
      simp only [List.getElem?_cons_succ] at ha
      rw [List.flatMap_cons]
      rw [List.getElem?_append_right (by rw [hf]; omega)]
      rw [hf]
      have : 3 * (i + 1) + j - 3 = 3 * i + j := by omega
      rw [this]
      exact ih i j a ha hj


/-- Claim C6: the 256-entry palette built by `Ocularity::image` stores, at
byte offsets `3i, 3i+1, 3i+2`, exactly the channels of the lerp step
`mix bg fg i = bg + (fg - bg) * (i/255)` for every `i < 256`, and the
endpoints are exact: entry 0 is `bg` channel-for-channel and entry 255 is
`fg` channel-for-channel. -/
theorem palette_is_lerp (bg fg : Colour) (hbg : bg.valid) (hfg : fg.valid) :
    (∀ i, i < 256 →
      (palette bg fg)[3 * i]? = some ((mix bg fg i).r) ∧
      (palette bg fg)[3 * i + 1]? = some ((mix bg fg i).g) ∧
      (palette bg fg)[3 * i + 2]? = some ((mix bg fg i).b))
  ∧ mix bg fg 0 = bg ∧ mix bg fg 255 = fg := by
  refine ⟨?_, mix_zero bg fg hbg, mix_fullscale bg fg hfg⟩
  intro i hi
  have hr : (List.range 256)[i]? = some i := by
    rw [List.getElem?_range hi]
  have key := flatMap_three_getElem
    (fun k => [(mix bg fg k).r, (mix bg fg k).g, (mix bg fg k).b])
    (by intro x; simp) (List.range 256)
  refine ⟨?_, ?_, ?_⟩
  · have h0 := key i 0 i hr (by omega)
    simpa [palette] using h0
  · have h1 := key i 1 i hr (by omega)
    simpa [palette] using h1
  · have h2 := key i 2 i hr (by omega)
    simpa [palette] using h2

/-- Witness for C6 at the spec's example colours `25,25,25` / `229,25,25`:
both gradient endpoints are exact. -/
theorem palette_is_lerp_witness :
    mix ⟨25, 25, 25⟩ ⟨229, 25, 25⟩ 0 = ⟨25, 25, 25⟩
  ∧ mix ⟨25, 25, 25⟩ ⟨229, 25, 25⟩ 255 = ⟨229, 25, 25⟩ :=
  ⟨(palette_is_lerp ⟨25, 25, 25⟩ ⟨229, 25, 25⟩ (by decide) (by decide)).2.1,
   (palette_is_lerp ⟨25, 25, 25⟩ ⟨229, 25, 25⟩ (by decide) (by decide)).2.2⟩


-- ----------------------------------------------------------------------------
-- Lemmas about splitting

lemma splitOnChar_ne_nil (sep : Char) (l : List Char) : splitOnChar sep l ≠ [] := by
  induction l with
  | nil => simp [splitOnChar]
  | cons c rest ih =>
    unfold splitOnChar
    by_cases h : c = sep
    · simp [h]
    · rw [if_neg h]
      rcases hr : splitOnChar sep rest with _ | ⟨f, fs⟩ <;> simp

lemma splitOnChar_no_sep (sep : Char) (l : List Char) (h : ∀ c ∈ l, c ≠ sep) :
    splitOnChar sep l = [l] := by
  induction l with
  | nil => rfl
  | cons c rest ih =>
    unfold splitOnChar
    rw [if_neg (h c (List.mem_cons_self c rest)),
      ih (fun x hx => h x (List.mem_cons_of_mem c hx))]

lemma splitOnChar_append (sep : Char) (l1 l2 : List Char) (h : ∀ c ∈ l1, c ≠ sep) :
    splitOnChar sep (l1 ++ sep :: l2) = l1 :: splitOnChar sep l2 := by
  induction l1 with
  | nil =>
    simp [splitOnChar]
  | cons c rest ih =>
    rw [List.cons_append]
    simp only [splitOnChar]
    rw [if_neg (h c (List.mem_cons_self c rest)),
      ih (fun x hx => h x (List.mem_cons_of_mem c hx))]


-- ----------------------------------------------------------------------------
-- Classification of `Colour::from_str` outcomes (claim C3)

lemma parseFields_ok_iff (fs : List (List Char)) :
    (∃ c, parseFields fs = .ok c) ↔
      ∃ f1 f2 f3, fs = [f1, f2, f3]
        ∧ (parseUInt 256 f1).isSome = true
        ∧ (parseUInt 256 f2).isSome = true
        ∧ (parseUInt 256 f3).isSome = true := by
  rcases fs with _ | ⟨f1, _ | ⟨f2, _ | ⟨f3, _ | ⟨f4, rest⟩⟩⟩⟩
  · simp [parseFields]
  · cases h1 : parseUInt 256 f1 <;> simp [parseFields, parseU8E, h1]
  · cases h1 : parseUInt 256 f1 <;> cases h2 : parseUInt 256 f2 <;>
      simp [parseFields, parseU8E, h1, h2]
  · cases h1 : parseUInt 256 f1 <;> cases h2 : parseUInt 256 f2 <;>
      cases h3 : parseUInt 256 f3 <;> simp [parseFields, parseU8E, h1, h2, h3]
    exact ⟨f1, f2, f3, ⟨rfl, rfl, rfl⟩, by simp [h1], by simp [h2], by simp [h3]⟩
  · cases h1 : parseUInt 256 f1 <;> cases h2 : parseUInt 256 f2 <;>
      cases h3 : parseUInt 256 f3 <;> simp [parseFields, parseU8E, h1, h2, h3]

lemma parseFields_extra (f1 f2 f3 f4 : List Char) (rest : List (List Char))
    (h1 : (parseUInt 256 f1).isSome = true) (h2 : (parseUInt 256 f2).isSome = true)
    (h3 : (parseUInt 256 f3).isSome = true) :
    parseFields (f1 :: f2 :: f3 :: f4 :: rest) = .error .Invalid := by
  obtain ⟨v1, e1⟩ := Option.isSome_iff_exists.mp h1
  obtain ⟨v2, e2⟩ := Option.isSome_iff_exists.mp h2
  obtain ⟨v3, e3⟩ := Option.isSome_iff_exists.mp h3
  simp [parseFields, parseU8E, e1, e2, e3]

lemma parseFields_short (fs : List (List Char)) (hlen : fs.length < 3)
    (hall : ∀ f ∈ fs, (parseUInt 256 f).isSome = true) :
    parseFields fs = .error .Invalid := by
  rcases fs with _ | ⟨f1, _ | ⟨f2, rest⟩⟩
  · simp [parseFields]
  · obtain ⟨v1, e1⟩ := Option.isSome_iff_exists.mp (hall f1 (by simp))
    simp [parseFields, parseU8E, e1]
  · rcases rest with _ | ⟨f3, rest'⟩
    · obtain ⟨v1, e1⟩ := Option.isSome_iff_exists.mp (hall f1 (by simp))
      obtain ⟨v2, e2⟩ := Option.isSome_iff_exists.mp (hall f2 (by simp))
      simp [parseFields, parseU8E, e1, e2]
    · simp at hlen; omega

lemma parseFields_badfield (pre : List (List Char)) (f : List Char)
    (rest : List (List Char)) (hlen : pre.length < 3)
    (hpre : ∀ p ∈ pre, (parseUInt 256 p).isSome = true)
    (hf : parseUInt 256 f = none) :
    parseFields (pre ++ f :: rest) = .error .Error := by
  rcases pre with _ | ⟨p1, _ | ⟨p2, rest'⟩⟩
  · simp [parseFields, parseU8E, hf]
  · obtain ⟨v1, e1⟩ := Option.isSome_iff_exists.mp (hpre p1 (by simp))
    simp [parseFields, parseU8E, e1, hf]
  · rcases rest' with _ | ⟨p3, rest''⟩
    · obtain ⟨v1, e1⟩ := Option.isSome_iff_exists.mp (hpre p1 (by simp))
      obtain ⟨v2, e2⟩ := Option.isSome_iff_exists.mp (hpre p2 (by simp))
      simp [parseFields, parseU8E, e1, e2, hf]
    · simp at hlen; omega

/-- Claim C3 (amended): parsing a colour succeeds exactly when the input
splits on commas into three fields each parsing as an integer in `[0,255]`;
among the failures, the `Invalid` kind arises when the fields run out early
or a fourth field remains (the supplied fields parsing), while a field
that fails the integer parse — non-numeric or out of range — produces the
wrapped parse-error kind (`Error`, mapped to HTTP 500), not `Invalid`. -/
theorem colour_parse_classification (s : List Char) :
    ((∃ c, Colour.fromStr s = .ok c) ↔
      ∃ f1 f2 f3, splitOnChar ',' s = [f1, f2, f3]
        ∧ (parseUInt 256 f1).isSome = true
        ∧ (parseUInt 256 f2).isSome = true
        ∧ (parseUInt 256 f3).isSome = true)
  ∧ (∀ f1 f2 f3 f4 rest, splitOnChar ',' s = f1 :: f2 :: f3 :: f4 :: rest →
      (parseUInt 256 f1).isSome = true → (parseUInt 256 f2).isSome = true →
      (parseUInt 256 f3).isSome = true →
      Colour.fromStr s = .error .Invalid)
  ∧ ((splitOnChar ',' s).length < 3 →
      (∀ f ∈ splitOnChar ',' s, (parseUInt 256 f).isSome = true) →
      Colour.fromStr s = .error .Invalid)
  ∧ (∀ pre f rest, splitOnChar ',' s = pre ++ f :: rest → pre.length < 3 →
      (∀ p ∈ pre, (parseUInt 256 p).isSome = true) →
      parseUInt 256 f = none →
      Colour.fromStr s = .error .Error) := by
  unfold Colour.fromStr
  refine ⟨parseFields_ok_iff _, ?_, parseFields_short _, ?_⟩
  · intro f1 f2 f3 f4 rest hs h1 h2 h3
    rw [hs]; exact parseFields_extra f1 f2 f3 f4 rest h1 h2 h3
  · intro pre f rest hs hlen hpre hf
    rw [hs]; exact parseFields_badfield pre f rest hlen hpre hf

/-- Counterexample to C3 as stated: `"300,0,0"` does not consist of three
in-range fields, yet parsing fails with the wrapped parse-error kind
(`Error`, mapped to HTTP 500), not with the `Invalid` condition. -/
theorem colour_parse_invalid_counterexample :
    Colour.fromStr ("300,0,0".data) = .error .Error
  ∧ HttpError.Error ≠ HttpError.Invalid := by
  exact ⟨by decide, by decide⟩

/-- Witness for C3 (amended) at `"1,2,3,4"`: a trailing fourth field is
rejected as `Invalid`. -/
theorem colour_parse_classification_witness :
    Colour.fromStr ("1,2,3,4".data) = .error .Invalid :=
  (colour_parse_classification ("1,2,3,4".data)).2.1
    ("1".data) ("2".data) ("3".data) ("4".data) []
    (by decide) (by decide) (by decide) (by decide)


-- ----------------------------------------------------------------------------
-- Decimal printing round-trips through unsigned parsing

lemma digitOf_spec (d : Nat) (hd : d < 10) :
    isDigitCh (digitOf d) = true ∧ digitVal (digitOf d) = d := by
  interval_cases d <;> exact ⟨by decide, by decide⟩

lemma natToDec_ne_nil (n : Nat) : natToDec n ≠ [] := by
  unfold natToDec
  split <;> simp

lemma natToDec_digits (n : Nat) : ∀ c ∈ natToDec n, isDigitCh c = true := by
  induction n using Nat.strong_induction_on with
  | _ n ih =>
    unfold natToDec
    split
    · intro c hc
      simp only [List.mem_singleton] at hc
      subst hc
      exact (digitOf_spec n (by omega)).1
    · intro c hc
      rw [List.mem_append] at hc
      rcases hc with hc | hc
      · exact ih (n / 10) (Nat.div_lt_self (by omega) (by omega)) c hc
      · simp only [List.mem_singleton] at hc
        subst hc
        exact (digitOf_spec (n % 10) (Nat.mod_lt _ (by omega))).1

lemma digitsVal_append_digit (l : List Char) (c : Char) :
    digitsVal (l ++ [c]) = 10 * digitsVal l + digitVal c := by
  unfold digitsVal
  rw [List.foldl_append]
  rfl

lemma digitsVal_natToDec (n : Nat) : digitsVal (natToDec n) = n := by
  induction n using Nat.strong_induction_on with
  | _ n ih =>
    unfold natToDec
    split
    · rename_i h
      show digitsVal [digitOf n] = n
      unfold digitsVal
      simp [(digitOf_spec n h).2]
    · rename_i h
      rw [digitsVal_append_digit,
        ih (n / 10) (Nat.div_lt_self (by omega) (by omega)),
        (digitOf_spec (n % 10) (Nat.mod_lt _ (by omega))).2]
      omega

/-- Printing an unsigned value and reparsing it returns the value. -/
lemma parseUInt_natToDec (bound n : Nat) (h : n < bound) :
    parseUInt bound (natToDec n) = some n := by
  have hd := natToDec_digits n
  have hne := natToDec_ne_nil n
  rcases hh : natToDec n with _ | ⟨c, rest⟩
  · exact absurd hh hne
  · have hc : isDigitCh c = true := by
      apply hd; rw [hh]; exact List.mem_cons_self c rest
    have hcp : c ≠ '+' := by
      intro hcc; subst hcc; exact absurd hc (by decide)
    have hcm : c ≠ '-' := by
      intro hcc; subst hcc; exact absurd hc (by decide)
    simp only [parseUInt]
    rw [if_neg hcp, if_neg hcm]
    unfold parseDigitsPos
    rw [if_neg (by simp)]
    have hall : (c :: rest).all isDigitCh = true := by
      rw [List.all_eq_true]
      intro x hx
      apply hd; rw [hh]; exact hx
    rw [if_pos hall, ← hh, digitsVal_natToDec, if_pos h]

-- ----------------------------------------------------------------------------
-- Questionnaire (struct Questionnaire and its FromStr)

/-- The `<form>` parameter names of the questionnaire (`const QUESTIONS`). -/
def QUESTIONS : List (List Char) := [
  "age".data, "sex".data, "eye_colour".data,
  "cvd".data, "eyewear".data, "surgery".data,
  "where".data, "light".data, "company".data,
  "device".data, "screen".data, "monochrome".data]

/-- Is `c` in the questionnaire alphabet?  The source test
`(c >= 'A' && c <= 'Z') || (c >= '0' && c <= '9') || c == '_'` compares
code points, here via `Char.toNat` (65–90, 48–57, 95). -/
def qChar (c : Char) : Bool :=
  (65 ≤ c.toNat && c.toNat ≤ 90) || (48 ≤ c.toNat && c.toNat ≤ 57) || c.toNat == 95

/-- UTF-8 size of one scalar value, as Rust `char::len_utf8`. -/
def charUtf8Size (c : Char) : Nat :=
  if c.toNat < 128 then 1
  else if c.toNat < 2048 then 2
  else if c.toNat < 65536 then 3
  else 4

/-- Rust `str::len`: the UTF-8 byte length of a string. -/
def utf8Len (s : List Char) : Nat := (s.map charUtf8Size).sum

/-- A user's answers to the questionnaire (`struct Questionnaire(String)`). -/
structure Questionnaire where
  s : List Char
deriving DecidableEq, Repr

/-- `impl FromStr for Questionnaire`: the byte length must equal the number
of questions, and every character must be in the alphabet; the accepted
string is stored unchanged. -/
def Questionnaire.fromStr (s : List Char) : Except HttpError Questionnaire :=
  if utf8Len s ≠ QUESTIONS.length then .error .Invalid
  else if s.all qChar then .ok ⟨s⟩
  else .error .Invalid

/-- A questionnaire as constructed by the program: 12 characters, all in
the alphabet. -/
def Questionnaire.valid (q : Questionnaire) : Prop :=
  q.s.length = 12 ∧ q.s.all qChar = true

instance (q : Questionnaire) : Decidable q.valid := by
  unfold Questionnaire.valid; infer_instance

lemma qChar_utf8Size (c : Char) (h : qChar c = true) : charUtf8Size c = 1 := by
  simp only [qChar, Bool.or_eq_true, Bool.and_eq_true, decide_eq_true_eq,
    beq_iff_eq] at h
  unfold charUtf8Size
  rw [if_pos (by omega)]

lemma utf8Len_of_alphabet (s : List Char) (h : s.all qChar = true) :
    utf8Len s = s.length := by
  unfold utf8Len
  rw [List.all_eq_true] at h
  induction s with
  | nil => rfl
  | cons c rest ih =>
    rw [List.map_cons, List.sum_cons, qChar_utf8Size c (h c (by simp)),
      List.length_cons, ih (fun x hx => h x (List.mem_cons_of_mem c hx))]
    omega

/-- The questionnaire parser, characterised by character count and
alphabet membership. -/
lemma questionnaire_fromStr_eq (s : List Char) :
    Questionnaire.fromStr s =
      if s.length = 12 ∧ s.all qChar = true then .ok ⟨s⟩ else .error .Invalid := by
  have hq : QUESTIONS.length = 12 := rfl
  unfold Questionnaire.fromStr
  by_cases hall : s.all qChar = true
  · rw [utf8Len_of_alphabet s hall, hq]
    by_cases hlen : s.length = 12
    · rw [if_neg (by omega), if_pos hall, if_pos ⟨hlen, hall⟩]
    · rw [if_pos hlen, if_neg (fun hc => hlen hc.1)]
  · have h2 : ¬(s.length = 12 ∧ s.all qChar = true) := fun hc => hall hc.2
    rw [if_neg h2]
    by_cases hlen : utf8Len s = QUESTIONS.length
    · rw [if_neg (by omega), if_neg hall]
    · rw [if_pos hlen]

/-- Claim C7: a string parses as a `Questionnaire` exactly when it has 12
characters all drawn from `[A-Z0-9_]`, in which case it is returned
unchanged; any other string (wrong length or an out-of-alphabet character)
is rejected with `Invalid`. -/
theorem questionnaire_parse_spec (s : List Char) :
    Questionnaire.fromStr s =
      if s.length = 12 ∧ s.all qChar = true then .ok ⟨s⟩ else .error .Invalid :=
  questionnaire_fromStr_eq s


-- ----------------------------------------------------------------------------
-- Request parameters and the session codec

/-- HTTP request parameters (`struct Params(HashMap<String, String>)`),
modelled as the key/value pair list collected from `url.query_pairs()`. -/
abbrev Params := List (List Char × List Char)

/-- HashMap lookup over the collected pair list: inserting a repeated key
overwrites, so the last binding for the key wins. -/
def lookupLast (k : List Char) : Params → Option (List Char)
  | [] => none
  | (k', v) :: rest =>
    match lookupLast k rest with
    | some v' => some v'
    | none => if k' = k then some v else none

/-- `Params::get::<T>`: a missing key is `Invalid`, a present value is
parsed with `T::from_str` and the parser's error propagates. -/
def getParsed {α : Type} (p : List Char → Except HttpError α) (ps : Params)
    (k : List Char) : Except HttpError α :=
  match lookupLast k ps with
  | none => .error .Invalid
  | some v => p v

/-- Rust `char::from_str` as used by `Params::get::<char>`: exactly one
character, a `ParseCharError` being wrapped into the `Error` kind. -/
def parseCharE (s : List Char) : Except HttpError Char :=
  match s with
  | [c] => .ok c
  | _ => .error .Error

/-- The `u32` parse used for the session id, a `ParseIntError` being
wrapped into the `Error` kind. -/
def parseU32E (s : List Char) : Except HttpError Nat :=
  match parseUInt (2 ^ 32) s with
  | some v => .ok v
  | none => .error .Error

/-- Information about a user (`struct Session`): a random 32-bit id and the
questionnaire answers. -/
structure Session where
  id : Nat
  questionnaire : Questionnaire
deriving DecidableEq, Repr

/-- `Session::from_params`: read `id` as a `u32` and `q` as a
`Questionnaire` from the query parameters. -/
def Session.from_params (ps : Params) : Except HttpError Session :=
  match getParsed parseU32E ps ("id".data) with
  | .error e => .error e
  | .ok i =>
    match getParsed Questionnaire.fromStr ps ("q".data) with
    | .error e => .error e
    | .ok q => .ok ⟨i, q⟩

/-- `Session::to_params`: `format!("id={}&q={}", id, questionnaire)`. -/
def Session.to_params (s : Session) : List Char :=
  "id=".data ++ natToDec s.id ++ "&q=".data ++ s.questionnaire.s

/-- A session the program can construct: a `u32` id and a valid
questionnaire. -/
def Session.valid (s : Session) : Prop := s.id < 2 ^ 32 ∧ s.questionnaire.valid

instance (s : Session) : Decidable s.valid := by
  unfold Session.valid; infer_instance

/-- Split one `&`-separated piece at its first `=` (rust-url's
`form_urlencoded`); a piece without `=` gets an empty value.  Percent
decoding and `+`-to-space conversion are not modelled: both are the
identity on every query string this program emits. -/
def splitKV : List Char → List Char × List Char
  | [] => ([], [])
  | c :: rest =>
    if c = '=' then ([], rest)
    else (c :: (splitKV rest).1, (splitKV rest).2)

/-- `url.query_pairs()`: split the query on `&`, skip empty pieces, and
split each remaining piece at its first `=`. -/
def parseQuery (s : List Char) : Params :=
  (splitOnChar '&' s).filterMap
    (fun piece => if piece = [] then none else some (splitKV piece))

lemma splitKV_append (l1 l2 : List Char) (h : ∀ c ∈ l1, c ≠ '=') :
    splitKV (l1 ++ '=' :: l2) = (l1, l2) := by
  induction l1 with
  | nil => simp [splitKV]
  | cons c rest ih =>
    rw [List.cons_append]
    simp only [splitKV]
    rw [if_neg (h c (List.mem_cons_self c rest)),
      ih (fun x hx => h x (List.mem_cons_of_mem c hx))]

lemma lookupLast_pair_head (k1 k2 k : List Char) (v1 v2 : List Char)
    (h1 : k1 = k) (h2 : k2 ≠ k) :
    lookupLast k [(k1, v1), (k2, v2)] = some v1 := by
  simp [lookupLast, h1, h2]

lemma lookupLast_pair_snd (k1 k2 k : List Char) (v1 v2 : List Char)
    (h2 : k2 = k) :
    lookupLast k [(k1, v1), (k2, v2)] = some v2 := by
  simp [lookupLast, h2]

lemma qChar_ne_special (c : Char) (h : qChar c = true) : c ≠ '&' ∧ c ≠ '=' := by
  constructor <;> intro hc <;> subst hc <;> exact absurd h (by decide)

/-- The query produced by `to_params` splits back into exactly the `id`
and `q` pairs. -/
lemma parseQuery_to_params (s : Session) (hq : s.questionnaire.valid) :
    parseQuery (Session.to_params s) =
      [("id".data, natToDec s.id), ("q".data, s.questionnaire.s)] := by
  obtain ⟨hlen, hall⟩ := hq
  rw [List.all_eq_true] at hall
  have hdig := natToDec_digits s.id
  have hnoamp1 : ∀ c ∈ ("id=".data ++ natToDec s.id), c ≠ '&' := by
    intro c hc
    rcases List.mem_append.mp hc with hc | hc
    · have : c = 'i' ∨ c = 'd' ∨ c = '=' := by simpa using hc
      rcases this with rfl | rfl | rfl <;> decide
    · intro hcc; subst hcc; exact absurd (hdig _ hc) (by decide)
  have hnoamp2 : ∀ c ∈ ("q=".data ++ s.questionnaire.s), c ≠ '&' := by
    intro c hc
    rcases List.mem_append.mp hc with hc | hc
    · have : c = 'q' ∨ c = '=' := by simpa using hc
      rcases this with rfl | rfl <;> decide
    · exact (qChar_ne_special c (hall c hc)).1
  have e : Session.to_params s =
      ("id=".data ++ natToDec s.id) ++ '&' :: ("q=".data ++ s.questionnaire.s) := by
    unfold Session.to_params
    rw [show ("&q=".data : List Char) = '&' :: "q=".data from rfl]
    simp [List.append_assoc]
  rw [e]
  unfold parseQuery
  rw [splitOnChar_append _ _ _ hnoamp1, splitOnChar_no_sep _ _ hnoamp2]
  have p1 : splitKV ("id=".data ++ natToDec s.id) = ("id".data, natToDec s.id) := by
    rw [show ("id=".data ++ natToDec s.id : List Char) =
        "id".data ++ '=' :: natToDec s.id from rfl]
    apply splitKV_append
    intro c hc
    have : c = 'i' ∨ c = 'd' := by simpa using hc
    rcases this with rfl | rfl <;> decide
  have p2 : splitKV ("q=".data ++ s.questionnaire.s) =
      ("q".data, s.questionnaire.s) := by
    rw [show ("q=".data ++ s.questionnaire.s : List Char) =
        "q".data ++ '=' :: s.questionnaire.s from rfl]
    apply splitKV_append
    intro c hc
    have : c = 'q' := by simpa using hc
    subst this; decide
  have ne1 : ("id=".data ++ natToDec s.id : List Char) ≠ [] := by
    simp
  have ne2 : ("q=".data ++ s.questionnaire.s : List Char) ≠ [] := by
    simp
  simp only [List.filterMap, if_neg ne1, if_neg ne2]
  simp [ne1, ne2]
  exact ⟨p1, p2⟩

/-- Claim C2: decoding the query string produced by encoding a valid
session returns exactly that session:
`Session::from_params (query_pairs (Session::to_params s)) = Ok(s)`. -/
theorem session_round_trip (s : Session) (hid : s.id < 2 ^ 32)
    (hq : s.questionnaire.valid) :
    Session.from_params (parseQuery (Session.to_params s)) = .ok s := by
  obtain ⟨hl, ha⟩ := hq
  rw [parseQuery_to_params s ⟨hl, ha⟩]
  unfold Session.from_params getParsed
  rw [lookupLast_pair_head _ _ _ _ _ rfl (by decide),
    lookupLast_pair_snd _ _ _ _ _ rfl]
  simp only [parseU32E, parseUInt_natToDec _ _ hid, questionnaire_fromStr_eq,
    if_pos (And.intro hl ha)]

/-- Witness for C2: the concrete session `id = 7`, all-unanswered
questionnaire, round-trips. -/
theorem session_round_trip_witness :
    Session.from_params (parseQuery (Session.to_params
      ⟨7, ⟨List.replicate 12 '_'⟩⟩)) = .ok ⟨7, ⟨List.replicate 12 '_'⟩⟩ :=
  session_round_trip ⟨7, ⟨List.replicate 12 '_'⟩⟩ (by norm_num) ⟨by decide, by decide⟩


-- ----------------------------------------------------------------------------
-- Session start (`Session::start`, `Ocularity::start`)

/-- The questionnaire-answer collection in `Session::start`:
`QUESTIONS.iter().map(|key| params.get::<char>(key)).collect::<Result<String, _>>()`,
stopping at the first failing question. -/
def collectAnswers (ps : Params) : List (List Char) → Except HttpError (List Char)
  | [] => .ok []
  | k :: ks =>
    match getParsed parseCharE ps k with
    | .error e => .error e
    | .ok c =>
      match collectAnswers ps ks with
      | .error e => .error e
      | .ok rest => .ok (c :: rest)

/-- `Session::start`: collect the twelve answers, validate them as a
`Questionnaire`, and pair with a freshly minted random id (here an
explicit argument). -/
def Session.start (newId : Nat) (ps : Params) : Except HttpError Session :=
  match collectAnswers ps QUESTIONS with
  | .error e => .error e
  | .ok answers =>
    match Questionnaire.fromStr answers with
    | .error e => .error e
    | .ok q => .ok ⟨newId, q⟩

/-- `Ocularity::start`: start a session and redirect to
`format!("question?{}", session.to_params())`. -/
def Ocularity.start (newId : Nat) (ps : Params) : Except HttpError HttpOkay :=
  match Session.start newId ps with
  | .error e => .error e
  | .ok session => .ok (.Redirect ("question?".data ++ session.to_params))

lemma collectAnswers_all_underscore (ps : Params) (ks : List (List Char))
    (h : ∀ k ∈ ks, lookupLast k ps = some ("_".data)) :
    collectAnswers ps ks = .ok (List.replicate ks.length '_') := by
  induction ks with
  | nil => rfl
  | cons k rest ih =>
    simp only [collectAnswers, getParsed, h k (List.mem_cons_self k rest),
      ih (fun x hx => h x (List.mem_cons_of_mem k hx))]
    rfl

lemma collectAnswers_missing (ps : Params) (ks : List (List Char))
    (hmiss : ∃ k ∈ ks, lookupLast k ps = none)
    (hone : ∀ k ∈ ks, ∀ v, lookupLast k ps = some v → ∃ c, v = [c]) :
    collectAnswers ps ks = .error .Invalid := by
  induction ks with
  | nil => simp at hmiss
  | cons k rest ih =>
    cases hk : lookupLast k ps with
    | none => simp [collectAnswers, getParsed, hk]
    | some v =>
      obtain ⟨c, rfl⟩ := hone k (List.mem_cons_self k rest) v hk
      have hmiss' : ∃ x ∈ rest, lookupLast x ps = none := by
        rcases hmiss with ⟨x, hx, hxn⟩
        rcases List.mem_cons.mp hx with rfl | hx'
        · rw [hk] at hxn; cases hxn
        · exact ⟨x, hx', hxn⟩
      simp only [collectAnswers, getParsed, hk,
        ih hmiss' (fun x hx => hone x (List.mem_cons_of_mem k hx))]
      rfl

/-- Claim C8: a `/start` request in which every one of the twelve
questionnaire parameters is the single character `_` succeeds with a 301
redirect to `question?id=<fresh id>&q=<12-character all-underscore token>`;
a `/start` request missing any one of the twelve parameters (the present
ones being single characters) is rejected as `Invalid`, i.e. status 400. -/
theorem start_spec (newId : Nat) (ps : Params) :
    ((∀ k ∈ QUESTIONS, lookupLast k ps = some ("_".data)) →
      Ocularity.start newId ps =
        .ok (.Redirect ("question?id=".data ++ natToDec newId ++ "&q=".data
          ++ List.replicate 12 '_'))
      ∧ statusOf (Ocularity.start newId ps) = 301)
  ∧ ((∃ k ∈ QUESTIONS, lookupLast k ps = none) →
     (∀ k ∈ QUESTIONS, ∀ v, lookupLast k ps = some v → ∃ c, v = [c]) →
      statusOf (Ocularity.start newId ps) = 400) := by
  constructor
  · intro hall
    have hcoll := collectAnswers_all_underscore ps QUESTIONS hall
    have hres : Ocularity.start newId ps =
        .ok (.Redirect ("question?id=".data ++ natToDec newId ++ "&q=".data
          ++ List.replicate 12 '_')) := by
      unfold Ocularity.start Session.start
      rw [hcoll]
      simp only [questionnaire_fromStr_eq, if_pos (by constructor <;> decide :
        (List.replicate (QUESTIONS.length) '_').length = 12
          ∧ (List.replicate (QUESTIONS.length) '_').all qChar = true)]
      unfold Session.to_params
      rfl
    exact ⟨hres, by rw [hres]; rfl⟩
  · intro hmiss hone
    have hcoll := collectAnswers_missing ps QUESTIONS hmiss hone
    unfold Ocularity.start Session.start
    rw [hcoll]
    rfl

/-- Witness for C8: with all twelve answers `_`, start redirects to the
all-underscore question URL; with an empty parameter set, start yields 400. -/
theorem start_spec_witness :
    Ocularity.start 7 (QUESTIONS.map (fun k => (k, "_".data))) =
      .ok (.Redirect ("question?id=".data ++ natToDec 7 ++ "&q=".data
        ++ List.replicate 12 '_'))
  ∧ statusOf (Ocularity.start 7 []) = 400 :=
  ⟨((start_spec 7 (QUESTIONS.map (fun k => (k, "_".data)))).1 (by decide)).1,
   (start_spec 7 []).2 (by decide)
     (fun k _ v hv => absurd hv (by simp [lookupLast]))⟩


-- ----------------------------------------------------------------------------
-- Trial submission (`Ocularity::submit`)

/-- Rust `Display` for `bool`. -/
def boolStr (x : Bool) : List Char := if x then "true".data else "false".data

/-- The record line written by `Ocularity::submit`:
`writeln!(results, "{}, {}, {}, {}, {}, {}, {}, {}", id, now, questionnaire,
is_first, win1, win2, lose1, lose2)` (the trailing newline is implicit in
the one-line-per-entry modelling). -/
def submitLine (i : Nat) (now : List Char) (q : Questionnaire) (isF : Bool)
    (w1 w2 l1 l2 : Colour) : List Char :=
  natToDec i ++ ", ".data ++ now ++ ", ".data ++ q.s ++ ", ".data ++ boolStr isF
    ++ ", ".data ++ w1.display ++ ", ".data ++ w2.display
    ++ ", ".data ++ l1.display ++ ", ".data ++ l2.display

/-- The fallible part of `Ocularity::submit` (everything before the
`writeln!`): parse the session, `which` as a `u8`, and the four colours,
in source order, computing `is_first = (which == 1)` and the line to log
together with the redirect response. -/
def submitCore (now : List Char) (ps : Params) :
    Except HttpError (HttpOkay × List Char) :=
  match Session.from_params ps with
  | .error e => .error e
  | .ok session =>
    match getParsed parseU8E ps ("which".data) with
    | .error e => .error e
    | .ok which =>
      match getParsed Colour.fromStr ps ("win1".data) with
      | .error e => .error e
      | .ok win1 =>
        match getParsed Colour.fromStr ps ("win2".data) with
        | .error e => .error e
        | .ok win2 =>
          match getParsed Colour.fromStr ps ("lose1".data) with
          | .error e => .error e
          | .ok lose1 =>
            match getParsed Colour.fromStr ps ("lose2".data) with
            | .error e => .error e
            | .ok lose2 =>
              .ok (.Redirect ("question?".data ++ session.to_params),
                submitLine session.id now session.questionnaire (which == 1)
                  win1 win2 lose1 lose2)

/-- `Ocularity::submit`: any `?`-propagated failure returns before the
`writeln!`, so nothing is appended; on success exactly one line is
appended and the redirect is returned. -/
def Ocularity.submit (now : List Char) (ps : Params) :
    Except HttpError HttpOkay × List (List Char) :=
  match submitCore now ps with
  | .error e => (.error e, [])
  | .ok (resp, line) => (.ok resp, [line])

/-- Sucessful submission, for an arbitrary parsed `which` value `n`. -/
lemma submit_success (now : List Char) (ps : Params) (si qs ws v1 v2 v3 v4 : List Char)
    (idv n : Nat) (c1 c2 c3 c4 : Colour)
    (hid : lookupLast ("id".data) ps = some si)
    (hsi : parseUInt (2 ^ 32) si = some idv)
    (hq : lookupLast ("q".data) ps = some qs)
    (hql : qs.length = 12) (hqa : qs.all qChar = true)
    (hw : lookupLast ("which".data) ps = some ws)
    (hwn : parseUInt 256 ws = some n)
    (h1 : lookupLast ("win1".data) ps = some v1) (hc1 : Colour.fromStr v1 = .ok c1)
    (h2 : lookupLast ("win2".data) ps = some v2) (hc2 : Colour.fromStr v2 = .ok c2)
    (h3 : lookupLast ("lose1".data) ps = some v3) (hc3 : Colour.fromStr v3 = .ok c3)
    (h4 : lookupLast ("lose2".data) ps = some v4) (hc4 : Colour.fromStr v4 = .ok c4) :
    Ocularity.submit now ps =
      (.ok (.Redirect ("question?id=".data ++ natToDec idv ++ "&q=".data ++ qs)),
       [submitLine idv now ⟨qs⟩ (n == 1) c1 c2 c3 c4]) := by
  unfold Ocularity.submit submitCore Session.from_params getParsed
  rw [hid, hq, hw, h1, h2, h3, h4]
  simp only [parseU32E, hsi, parseU8E, hwn, questionnaire_fromStr_eq,
    if_pos (And.intro hql hqa), hc1, hc2, hc3, hc4]
  unfold Session.to_params
  rfl


/-- Claim C4 (amended): a `/submit` request with `which=1`, a valid session
token, and four well-formed colours appends exactly one line — the session
id, the supplied timestamp, the questionnaire token, `true`, and the four
colours in order win1, win2, lose1, lose2 — and redirects; any failing
parse appends nothing to the log; and a request whose `win1` parameter is
missing is rejected with `Invalid` (status 400).  (When `win1` is present
but a field of it fails the integer parse, the status is 500, not 400 —
see the counterexample.) -/
theorem submit_spec (now : List Char) (ps : Params) (si qs ws v1 v2 v3 v4 : List Char)
    (idv : Nat) (c1 c2 c3 c4 : Colour) :
    (lookupLast ("id".data) ps = some si → parseUInt (2 ^ 32) si = some idv →
     lookupLast ("q".data) ps = some qs → qs.length = 12 → qs.all qChar = true →
     lookupLast ("which".data) ps = some ws → parseUInt 256 ws = some 1 →
     lookupLast ("win1".data) ps = some v1 → Colour.fromStr v1 = .ok c1 →
     lookupLast ("win2".data) ps = some v2 → Colour.fromStr v2 = .ok c2 →
     lookupLast ("lose1".data) ps = some v3 → Colour.fromStr v3 = .ok c3 →
     lookupLast ("lose2".data) ps = some v4 → Colour.fromStr v4 = .ok c4 →
      Ocularity.submit now ps =
        (.ok (.Redirect ("question?id=".data ++ natToDec idv ++ "&q=".data ++ qs)),
         [submitLine idv now ⟨qs⟩ true c1 c2 c3 c4]))
  ∧ (∀ (now' : List Char) (ps' : Params) e,
      (Ocularity.submit now' ps').1 = .error e → (Ocularity.submit now' ps').2 = [])
  ∧ (lookupLast ("id".data) ps = some si → parseUInt (2 ^ 32) si = some idv →
     lookupLast ("q".data) ps = some qs → qs.length = 12 → qs.all qChar = true →
     lookupLast ("which".data) ps = some ws → parseUInt 256 ws = some 1 →
     lookupLast ("win1".data) ps = none →
      Ocularity.submit now ps = (.error .Invalid, [])
      ∧ statusOf (Ocularity.submit now ps).1 = 400) := by
  refine ⟨?_, ?_, ?_⟩
  · intro hid hsi hq hql hqa hw hwn h1 hc1 h2 hc2 h3 hc3 h4 hc4
    exact submit_success now ps si qs ws v1 v2 v3 v4 idv 1 c1 c2 c3 c4
      hid hsi hq hql hqa hw hwn h1 hc1 h2 hc2 h3 hc3 h4 hc4
  · intro now' ps' e he
    unfold Ocularity.submit at he ⊢
    cases h : submitCore now' ps' with
    | error e' => simp
    | ok v =>
      rw [h] at he
      rcases v with ⟨resp, line⟩
      simp at he
  · intro hid hsi hq hql hqa hw hwn h1
    have hsub : Ocularity.submit now ps = (.error .Invalid, []) := by
      unfold Ocularity.submit submitCore Session.from_params getParsed
      rw [hid, hq, hw, h1]
      simp only [parseU32E, hsi, parseU8E, hwn, questionnaire_fromStr_eq,
        if_pos (And.intro hql hqa)]
    exact ⟨hsub, by rw [hsub]; rfl⟩

/-- Counterexample to C4 as stated: with a valid session, `which=1` and a
malformed `win1` of `300,0,0` (an out-of-range field), nothing is appended
but the status is 500 (the wrapped `ParseIntError`), not 400. -/
theorem submit_500_counterexample :
    statusOf (Ocularity.submit [] [
      ("id".data, "7".data), ("q".data, "____________".data),
      ("which".data, "1".data), ("win1".data, "300,0,0".data),
      ("win2".data, "0,0,0".data), ("lose1".data, "0,0,0".data),
      ("lose2".data, "0,0,0".data)]).1 = 500
  ∧ (Ocularity.submit [] [
      ("id".data, "7".data), ("q".data, "____________".data),
      ("which".data, "1".data), ("win1".data, "300,0,0".data),
      ("win2".data, "0,0,0".data), ("lose1".data, "0,0,0".data),
      ("lose2".data, "0,0,0".data)]).2 = [] := by
  exact ⟨by decide, by decide⟩

/-- Witness for C4 (amended): a fully well-formed submission appends one
line and redirects; the same submission without `win1` yields 400 and
appends nothing. -/
theorem submit_spec_witness :
    Ocularity.submit ("t".data) [
      ("id".data, "7".data), ("q".data, "____________".data),
      ("which".data, "1".data), ("win1".data, "1,2,3".data),
      ("win2".data, "4,5,6".data), ("lose1".data, "7,8,9".data),
      ("lose2".data, "10,11,12".data)] =
      (.ok (.Redirect ("question?id=".data ++ natToDec 7 ++ "&q=".data
        ++ "____________".data)),
       [submitLine 7 ("t".data) ⟨"____________".data⟩ true
         ⟨1, 2, 3⟩ ⟨4, 5, 6⟩ ⟨7, 8, 9⟩ ⟨10, 11, 12⟩])
  ∧ statusOf (Ocularity.submit ("t".data) [
      ("id".data, "7".data), ("q".data, "____________".data),
      ("which".data, "1".data),
      ("win2".data, "4,5,6".data), ("lose1".data, "7,8,9".data),
      ("lose2".data, "10,11,12".data)]).1 = 400 :=
  ⟨(submit_spec ("t".data) _ ("7".data) ("____________".data) ("1".data)
      ("1,2,3".data) ("4,5,6".data) ("7,8,9".data) ("10,11,12".data) 7
      ⟨1, 2, 3⟩ ⟨4, 5, 6⟩ ⟨7, 8, 9⟩ ⟨10, 11, 12⟩).1
    (by decide) (by decide) (by decide) (by decide) (by decide) (by decide)
    (by decide) (by decide) (by decide) (by decide) (by decide) (by decide)
    (by decide) (by decide) (by decide),
   ((submit_spec ("t".data) _ ("7".data) ("____________".data) ("1".data)
      ("x".data) ("x".data) ("x".data) ("x".data) 7
      ⟨0, 0, 0⟩ ⟨0, 0, 0⟩ ⟨0, 0, 0⟩ ⟨0, 0, 0⟩).2.2
    (by decide) (by decide) (by decide) (by decide) (by decide) (by decide)
    (by decide) (by decide)).2⟩

/-- Claim C9: `submit` accepts any `which` value that parses as a `u8` —
not only 1 and 2 — and logs the chosen-first boolean as `which == 1`. -/
theorem submit_which_any (now : List Char) (ps : Params)
    (si qs ws v1 v2 v3 v4 : List Char) (idv n : Nat) (c1 c2 c3 c4 : Colour)
    (hid : lookupLast ("id".data) ps = some si)
    (hsi : parseUInt (2 ^ 32) si = some idv)
    (hq : lookupLast ("q".data) ps = some qs)
    (hql : qs.length = 12) (hqa : qs.all qChar = true)
    (hw : lookupLast ("which".data) ps = some ws)
    (hwn : parseUInt 256 ws = some n)
    (h1 : lookupLast ("win1".data) ps = some v1) (hc1 : Colour.fromStr v1 = .ok c1)
    (h2 : lookupLast ("win2".data) ps = some v2) (hc2 : Colour.fromStr v2 = .ok c2)
    (h3 : lookupLast ("lose1".data) ps = some v3) (hc3 : Colour.fromStr v3 = .ok c3)
    (h4 : lookupLast ("lose2".data) ps = some v4) (hc4 : Colour.fromStr v4 = .ok c4) :
    Ocularity.submit now ps =
      (.ok (.Redirect ("question?id=".data ++ natToDec idv ++ "&q=".data ++ qs)),
       [submitLine idv now ⟨qs⟩ (n == 1) c1 c2 c3 c4]) :=
  submit_success now ps si qs ws v1 v2 v3 v4 idv n c1 c2 c3 c4
    hid hsi hq hql hqa hw hwn h1 hc1 h2 hc2 h3 hc3 h4 hc4

/-- Witness for C9: `which=7` is not rejected; the submission is logged
with the chosen-first boolean `false`. -/
theorem submit_which_any_witness :
    Ocularity.submit ("t".data) [
      ("id".data, "7".data), ("q".data, "____________".data),
      ("which".data, "7".data), ("win1".data, "1,2,3".data),
      ("win2".data, "4,5,6".data), ("lose1".data, "7,8,9".data),
      ("lose2".data, "10,11,12".data)] =
      (.ok (.Redirect ("question?id=".data ++ natToDec 7 ++ "&q=".data
        ++ "____________".data)),
       [submitLine 7 ("t".data) ⟨"____________".data⟩ false
         ⟨1, 2, 3⟩ ⟨4, 5, 6⟩ ⟨7, 8, 9⟩ ⟨10, 11, 12⟩]) :=
  submit_which_any ("t".data) _ ("7".data) ("____________".data) ("7".data)
    ("1,2,3".data) ("4,5,6".data) ("7,8,9".data) ("10,11,12".data) 7 7
    ⟨1, 2, 3⟩ ⟨4, 5, 6⟩ ⟨7, 8, 9⟩ ⟨10, 11, 12⟩
    (by decide) (by decide) (by decide) (by decide) (by decide) (by decide)
    (by decide) (by decide) (by decide) (by decide) (by decide) (by decide)
    (by decide) (by decide) (by decide)


-- ----------------------------------------------------------------------------
-- Trial randomizer and the question page

/-- One draw of randomness for one stimulus: the three uniform indices the
source draws with `rand::random_range` into `CENTRES`, `DELTAS` and
`SCALES`. -/
structure Rand3 where
  ci : Fin CENTRES.length
  di : Fin DELTAS.length
  si : Fin SCALES.length

/-- `random_centre()`: a uniformly chosen element of `CENTRES`. -/
def random_centre (i : Fin CENTRES.length) : Colour := CENTRES.get i

/-- `random_delta()`: a uniformly chosen element of `DELTAS` times a
uniformly chosen element of `SCALES`. -/
def random_delta (di : Fin DELTAS.length) (si : Fin SCALES.length) : Delta :=
  (DELTAS.get di).smul (SCALES.get si)

/-- `Ocularity::random_colour_pair`: one centre, one delta, and the pair
`(centre + delta, centre - delta)`. -/
def random_colour_pair (r : Rand3) : Colour × Colour :=
  let centre := random_centre r.ci
  let delta := random_delta r.di r.si
  (centre.addDelta delta, centre.subDelta delta)

/-- `Ocularity::form_element` (the template's inter-tag whitespace is
condensed; the interpolated values and their order are the source's:
id, q, which, win.0, win.1, lose.0, lose.1, then win.0 and win.1 again in
the image URL). -/
def form_element (s : Session) (which : Nat) (win lose : Colour × Colour) :
    List Char :=
  "<form action=\"submit\"><input type=\"hidden\" name=\"id\" value=\"".data
    ++ natToDec s.id
    ++ "\"><input type=\"hidden\" name=\"q\" value=\"".data
    ++ s.questionnaire.s
    ++ "\"><input type=\"hidden\" name=\"which\" value=\"".data
    ++ natToDec which
    ++ "\"><input type=\"hidden\" name=\"win1\" value=\"".data
    ++ win.1.display
    ++ "\"/><input type=\"hidden\" name=\"win2\" value=\"".data
    ++ win.2.display
    ++ "\"/><input type=\"hidden\" name=\"lose1\" value=\"".data
    ++ lose.1.display
    ++ "\"/><input type=\"hidden\" name=\"lose2\" value=\"".data
    ++ lose.2.display
    ++ "\"/><input type=\"image\" src=\"image.png?bg=".data
    ++ win.1.display
    ++ "&fg=".data
    ++ win.2.display
    ++ "\"/></form>".data

/-- The page built by `Ocularity::question` (whitespace condensed): form 1
shows `pair1` and names `pair2` as the loser, form 2 the reverse. -/
def questionHtml (s : Session) (p1 p2 : Colour × Colour) : List Char :=
  "<!DOCTYPE html><html><head><title>Click on the one that is most visible</title><link rel=\"stylesheet\" href=\"stylesheet.css\"></head><body class=\"grey\"><div class=\"box\"><p class=\"instruction\">Click on the image where the text is most easily visible.</p><div class=\"question\"><div class=\"images\">".data
    ++ form_element s 1 p1 p2
    ++ form_element s 2 p2 p1
    ++ "</div></div></div></body></html>".data

/-- `Ocularity::question`: decode the session, draw two stimulus pairs
from independent randomness, and render the page. -/
def Ocularity.question (r1 r2 : Rand3) (ps : Params) : Except HttpError HttpOkay :=
  match Session.from_params ps with
  | .error e => .error e
  | .ok session =>
    .ok (.Html (questionHtml session (random_colour_pair r1)
      (random_colour_pair r2)))

/-- The shape claim C5 ascribes to a direction vector: two channels of
magnitude 10 (either sign) and the third zero. -/
def mixesPMTenAcrossTwo (d : Delta) : Prop :=
  ∃ u v : ℚ, (u = 10 ∨ u = -10) ∧ (v = 10 ∨ v = -10) ∧
    (d = ⟨u, v, 0⟩ ∨ d = ⟨u, 0, v⟩ ∨ d = ⟨0, u, v⟩)

/-- Counterexample to C5 as stated: the first direction vector is
`(2, 2, -3)` — three nonzero channels, none of magnitude 10 — so the
directions are not "six unit vectors mixing ±10 magnitude across two
channels". -/
theorem deltas_not_pm10_counterexample :
    ¬ (∀ d ∈ DELTAS, mixesPMTenAcrossTwo d) := by
  intro h
  obtain ⟨u, v, hu, hv, hcase⟩ := h ⟨2, 2, -3⟩ (by simp [DELTAS])
  rcases hcase with hc | hc | hc <;> rw [Delta.mk.injEq] at hc <;>
    rcases hu with rfl | rfl <;> norm_num at hc

/-- Claim C5 (amended): every stimulus pair is
`(centre + delta, centre - delta)` with the centre drawn from the fixed
35-entry palette and `delta` one of the six fixed direction vectors
`(2,2,-3), (5,-5,0), (2,-3,2), (5,0,-5), (-3,2,2), (0,5,-5)` multiplied by
one of the ten scale magnitudes ±1..±5; the two stimuli of one question
page come from independent draws (`r1` feeds only the first pair and `r2`
only the second). -/
theorem trial_pair_structure :
    (∀ r : Rand3, ∃ centre ∈ CENTRES, ∃ dv ∈ DELTAS, ∃ k ∈ SCALES,
      random_colour_pair r =
        (centre.addDelta (dv.smul k), centre.subDelta (dv.smul k)))
  ∧ CENTRES.length = 35
  ∧ DELTAS = [⟨2, 2, -3⟩, ⟨5, -5, 0⟩, ⟨2, -3, 2⟩, ⟨5, 0, -5⟩,
      ⟨-3, 2, 2⟩, ⟨0, 5, -5⟩]
  ∧ SCALES = [-5, -4, -3, -2, -1, 1, 2, 3, 4, 5]
  ∧ (∀ (r1 r2 : Rand3) (ps : Params) (session : Session),
      Session.from_params ps = .ok session →
      Ocularity.question r1 r2 ps =
        .ok (.Html (questionHtml session (random_colour_pair r1)
          (random_colour_pair r2)))) := by
  refine ⟨?_, rfl, rfl, rfl, ?_⟩
  · intro r
    exact ⟨CENTRES.get r.ci, CENTRES.get_mem _ _, DELTAS.get r.di,
      DELTAS.get_mem _ _, SCALES.get r.si, SCALES.get_mem _ _, rfl⟩
  · intro r1 r2 ps session h
    unfold Ocularity.question
    rw [h]

/-- Witness for C5 (amended): a concrete question page with explicit
random draws embeds the two independently drawn pairs. -/
theorem trial_pair_structure_witness :
    Ocularity.question ⟨⟨0, by decide⟩, ⟨0, by decide⟩, ⟨0, by decide⟩⟩
      ⟨⟨1, by decide⟩, ⟨1, by decide⟩, ⟨1, by decide⟩⟩
      [("id".data, "7".data), ("q".data, "____________".data)] =
      .ok (.Html (questionHtml ⟨7, ⟨"____________".data⟩⟩
        (random_colour_pair ⟨⟨0, by decide⟩, ⟨0, by decide⟩, ⟨0, by decide⟩⟩)
        (random_colour_pair ⟨⟨1, by decide⟩, ⟨1, by decide⟩, ⟨1, by decide⟩⟩))) :=
  trial_pair_structure.2.2.2.2 _ _ _ _ (by decide)


-- ----------------------------------------------------------------------------
-- Image synthesis and the request dispatcher

/-- A decoded raster as delivered by the PNG decoder collaborator. -/
structure Raster where
  width : Nat
  height : Nat
  grayscale : Bool
  pixels : List Nat

/-- The PNG codec, an external collaborator consumed as two pure
functions: decode a byte stream, and encode width/height/palette/pixels
into a byte stream. -/
structure PngCodec where
  decode : List Nat → Option Raster
  encode : Nat → Nat → List Nat → List Nat → Option (List Nat)

/-- `Ocularity::image`: parse `bg`/`fg`, build the 768-byte palette, decode
the fixed test pattern, and re-encode it indexed with the palette.  The
source `unwrap`s the frame read and `assert`s the grayscale colour type —
modelled as internal failures — and wraps codec errors into `Error`. -/
def Ocularity.image (codec : PngCodec) (testPattern : List Nat) (ps : Params) :
    Except HttpError HttpOkay :=
  match getParsed Colour.fromStr ps ("bg".data) with
  | .error e => .error e
  | .ok bg =>
    match getParsed Colour.fromStr ps ("fg".data) with
    | .error e => .error e
    | .ok fg =>
      match codec.decode testPattern with
      | none => .error .Error
      | some raster =>
        if raster.grayscale = false then .error .Error
        else
          match codec.encode raster.width raster.height (palette bg fg)
              raster.pixels with
          | none => .error .Error
          | some bytes => .ok (.Data bytes)

/-- HTTP request method; the dispatcher only distinguishes GET. -/
inductive Method where
  | Get
  | Post
  | Other
deriving DecidableEq, Repr

/-- All ambient, per-request nondeterminism of the process: the fresh
session id (`rand::random`), the two stimulus draws of a question page,
and the clock reading used by `submit`. -/
structure Ambient where
  newId : Nat
  r1 : Rand3
  r2 : Rand3
  now : List Char

/-- The routing of `Ocularity::handle_request` on the first path segment
of a GET request. -/
def Ocularity.routeGet (amb : Ambient) (codec : PngCodec)
    (testPattern : List Nat) (s : List Char) (ps : Params) :
    Except HttpError HttpOkay :=
  if s = [] ∨ s = "index.html".data then .ok (.Redirect ("intro.html".data))
  else if s = "stylesheet.css".data then .ok (.Static 0)
  else if s = "intro.html".data then .ok (.Static 1)
  else if s = "image.png".data then Ocularity.image codec testPattern ps
  else if s = "question".data then Ocularity.question amb.r1 amb.r2 ps
  else if s = "start".data then Ocularity.start amb.newId ps
  else if s = "submit".data then (Ocularity.submit amb.now ps).1
  else .error .NotFound

/-- `Ocularity::handle_request`: reject non-GET, then route on the first
path segment; `none` stands for a URL with no path segments. -/
def Ocularity.handle_request (amb : Ambient) (codec : PngCodec)
    (testPattern : List Nat) :
    Method → Option (List Char) → Params → Except HttpError HttpOkay
  | .Get, none, _ => .ok (.Redirect ("intro.html".data))
  | .Get, some s, ps => Ocularity.routeGet amb codec testPattern s ps
  | _, _, _ => .error .Invalid

/-- Claim C10: image synthesis is deterministic — for a fixed codec, test
pattern and query parameters, the response to `image.png` is identical
under any two ambient states (random draws and clock readings), because no
randomness or per-request state reaches the palette construction or the
encoding.  (The same does not hold of `question`, `start` or `submit`,
which read `amb`.) -/
lemma handle_request_image (amb : Ambient) (codec : PngCodec)
    (testPattern : List Nat) (ps : Params) :
    Ocularity.handle_request amb codec testPattern .Get (some ("image.png".data)) ps =
      Ocularity.image codec testPattern ps := by
  simp only [Ocularity.handle_request]
  unfold Ocularity.routeGet
  rw [if_neg (by decide), if_neg (by decide), if_neg (by decide), if_pos rfl]

theorem image_request_deterministic (a1 a2 : Ambient) (codec : PngCodec)
    (testPattern : List Nat) (ps : Params) :
    Ocularity.handle_request a1 codec testPattern .Get (some ("image.png".data)) ps =
    Ocularity.handle_request a2 codec testPattern .Get (some ("image.png".data)) ps := by
  rw [handle_request_image, handle_request_image]

